import Mathlib

/-!
Verification development for the Star-Fee-Distributor program.

Shallow embedding of `programs/star_fee_distributor/src`: the distribution
math and validation utilities (`utils.rs`), the `Policy` / `Progress` state
(`state.rs`), the `initialize` handler (`instructions/initialize.rs`) and the
`crank_distribute` handler (`instructions/crank.rs`).

Machine integers are modelled as `Nat`; every Rust `checked_*` operation is
modelled explicitly (`checkedAdd64`, `checkedMul128`, ...), and every Rust
`as uN` narrowing cast is modelled as `% 2 ^ N`.  Fallible Rust functions
returning `Result<T>` become `Except StarError T`.  Solana account mutation is
all-or-nothing per instruction, so a handler is a pure function from the
pre-state to `Except StarError (post-state, emitted token transfers)`: an
error means nothing is persisted and no transfer happens.

The fee-claim collaborator (`claim_fees_from_position`) is external to the
core; the in-repo stub returns a fixed `ClaimResult`.  The crank handler is
therefore parameterised by the `ClaimResult` the collaborator reports, and
`claim_fees_stub` records the stub's fixed value.
-/

namespace Star

/-- Error codes from `errors.rs` (the subset reachable from the modelled
handlers). -/
inductive StarError where
  | BaseFeeDetected
  | DistributionTooEarly
  | NoLockedInvestors
  | InvalidPoolTokenOrder
  | InvalidFeeShareBps
  | InvalidDailyCap
  | InvalidMinPayout
  | InvalidY0
  | InvalidPage
  | MathOverflow
  | InvalidQuoteMint
  | DistributionAlreadyComplete
  deriving DecidableEq, Repr

/-- Rust `u64::checked_add` followed by `.ok_or(StarError::MathOverflow)`. -/
def checkedAdd64 (a b : Nat) : Except StarError Nat :=
  if a + b < 2 ^ 64 then .ok (a + b) else .error .MathOverflow

/-- Rust `u128::checked_mul` followed by `.ok_or(StarError::MathOverflow)`. -/
def checkedMul128 (a b : Nat) : Except StarError Nat :=
  if a * b < 2 ^ 128 then .ok (a * b) else .error .MathOverflow

/-- Rust `u128::checked_div` followed by `.ok_or(StarError::MathOverflow)`:
it only fails on a zero divisor. -/
def checkedDiv128 (a b : Nat) : Except StarError Nat :=
  if b = 0 then .error .MathOverflow else .ok (a / b)

/-- Rust `u64::checked_sub`, returning `Option` as in the source (the callers
use `.unwrap_or(0)`, modelled as `.getD 0`). -/
def checkedSub64 (a b : Nat) : Option Nat :=
  if b ≤ a then some (a - b) else none

/-- `ClaimResult` from `utils.rs`: amounts reported by one fee claim. -/
structure ClaimResult where
  base_amount : Nat
  quote_amount : Nat
  deriving DecidableEq, Repr

/-- `PoolConfig` from `utils.rs` (the two token mints; pubkeys are modelled
as `Nat` identifiers; the tick fields play no role in the modelled code). -/
structure PoolConfig where
  token_a : Nat
  token_b : Nat
  deriving DecidableEq, Repr

/-- `DistributionMath::calculate_eligible_share_bps` (utils.rs:13-33).
The multiplication is done in `u128`; the final `as u16` narrowing is the
`% 2 ^ 16`. -/
def calculate_eligible_share_bps (locked_total y0 max_investor_fee_share_bps : Nat) :
    Except StarError Nat :=
  if y0 = 0 then .ok 0
  else
    match checkedMul128 locked_total 10000 with
    | .error e => .error e
    | .ok m =>
      match checkedDiv128 m y0 with
      | .error e => .error e
      | .ok f_locked => .ok (min f_locked max_investor_fee_share_bps % 2 ^ 16)

/-- `DistributionMath::calculate_investor_fee_quote` (utils.rs:36-51).
The final `as u64` narrowing is the `% 2 ^ 64`. -/
def calculate_investor_fee_quote (claimed_quote eligible_share_bps : Nat) :
    Except StarError Nat :=
  if eligible_share_bps = 0 then .ok 0
  else
    match checkedMul128 claimed_quote eligible_share_bps with
    | .error e => .error e
    | .ok m =>
      match checkedDiv128 m 10000 with
      | .error e => .error e
      | .ok investor_fee => .ok (investor_fee % 2 ^ 64)

/-- `DistributionMath::apply_daily_cap` (utils.rs:54-64): the
`checked_sub(...).unwrap_or(0)` on `Nat` is truncated subtraction. -/
def apply_daily_cap (requested_amount daily_cap already_distributed : Nat) :
    Except StarError Nat :=
  .ok (min requested_amount (daily_cap - already_distributed))

/-- `DistributionMath::calculate_investor_weight` (utils.rs:67-84).
The final `as u64` narrowing is the `% 2 ^ 64`. -/
def calculate_investor_weight (investor_locked total_locked : Nat) :
    Except StarError Nat :=
  if total_locked = 0 then .ok 0
  else
    match checkedMul128 investor_locked 10000 with
    | .error e => .error e
    | .ok m =>
      match checkedDiv128 m total_locked with
      | .error e => .error e
      | .ok weight => .ok (weight % 2 ^ 64)

/-- `DistributionMath::calculate_investor_payout` (utils.rs:87-106).
The `as u64` narrowing of the `u128` quotient is the `% 2 ^ 64`; then the
minimum-payout dust filter zeroes the whole amount. -/
def calculate_investor_payout (total_investor_fee_quote investor_weight_bps min_payout_lamports : Nat) :
    Except StarError Nat :=
  match checkedMul128 total_investor_fee_quote investor_weight_bps with
  | .error e => .error e
  | .ok m =>
    match checkedDiv128 m 10000 with
    | .error e => .error e
    | .ok payout =>
      if payout % 2 ^ 64 < min_payout_lamports then .ok 0 else .ok (payout % 2 ^ 64)

/-- `ValidationUtils::validate_quote_only_pool` (utils.rs:144-158). -/
def validate_quote_only_pool (pool_config : PoolConfig) (expected_quote_mint : Nat) :
    Except StarError Unit :=
  if pool_config.token_b = expected_quote_mint then .ok () else .error .InvalidPoolTokenOrder

/-- `ValidationUtils::detect_base_fees` (utils.rs:161-164). -/
def detect_base_fees (claim_result : ClaimResult) : Except StarError Unit :=
  if claim_result.base_amount = 0 then .ok () else .error .BaseFeeDetected

/-- `Policy` account (state.rs:5-23); pubkeys as `Nat`, the PDA bump is
account plumbing and not modelled. -/
structure Policy where
  investor_fee_share_bps : Nat
  daily_cap : Nat
  min_payout_lamports : Nat
  y0 : Nat
  quote_mint : Nat
  vault : Nat
  created_at : Int
  deriving DecidableEq, Repr

/-- `Progress` account (state.rs:26-46); the PDA bump is not modelled. -/
structure Progress where
  last_distribution_ts : Int
  distributed_today : Nat
  carry_over : Nat
  pagination_cursor : Nat
  current_day : Int
  claimed_today : Nat
  day_complete : Bool
  vault : Nat
  deriving DecidableEq, Repr

/-- `InvestorAccount` (state.rs:50-59). -/
structure InvestorAccount where
  stream_pubkey : Nat
  investor_quote_ata : Nat
  locked_amount : Nat
  weight : Nat
  deriving DecidableEq, Repr

/-- `Policy::new` (state.rs:102-121); `created_at` is the clock reading. -/
def Policy.new (investor_fee_share_bps daily_cap min_payout_lamports y0 quote_mint vault : Nat)
    (now : Int) : Policy :=
  { investor_fee_share_bps := investor_fee_share_bps
    daily_cap := daily_cap
    min_payout_lamports := min_payout_lamports
    y0 := y0
    quote_mint := quote_mint
    vault := vault
    created_at := now }

/-- `Policy::validate` (state.rs:123-129). -/
def Policy.validate (p : Policy) : Except StarError Unit :=
  if p.investor_fee_share_bps ≤ 10000 then
    if 0 < p.daily_cap then
      if 0 < p.min_payout_lamports then
        if 0 < p.y0 then .ok ()
        else .error .InvalidY0
      else .error .InvalidMinPayout
    else .error .InvalidDailyCap
  else .error .InvalidFeeShareBps

/-- `Progress::new` (state.rs:144-156). -/
def Progress.new (vault : Nat) : Progress :=
  { last_distribution_ts := 0
    distributed_today := 0
    carry_over := 0
    pagination_cursor := 0
    current_day := 0
    claimed_today := 0
    day_complete := false
    vault := vault }

/-- `Progress::is_new_day` (state.rs:158-160). -/
def Progress.is_new_day (p : Progress) (current_ts : Int) : Bool :=
  decide (p.last_distribution_ts + 86400 ≤ current_ts)

/-- `Progress::reset_for_new_day` (state.rs:162-170): `carry_over` is
preserved; `current_day` uses Rust `i64` division (truncated). -/
def Progress.reset_for_new_day (p : Progress) (current_ts : Int) : Progress :=
  { p with
    last_distribution_ts := current_ts
    distributed_today := 0
    claimed_today := 0
    pagination_cursor := 0
    current_day := Int.tdiv current_ts 86400
    day_complete := false }

/-- A token transfer emitted by the crank (the CPI calls in crank.rs):
either a payout to an investor quote ATA, or the day-close remainder to the
creator quote ATA. -/
inductive Transfer where
  | toInvestor (ata : Nat) (amount : Nat)
  | toCreator (amount : Nat)
  deriving DecidableEq, Repr

/-- Total amount a transfer list pays to the creator. -/
def creatorPaid : List Transfer → Nat
  | [] => 0
  | .toCreator a :: rest => a + creatorPaid rest
  | .toInvestor _ _ :: rest => creatorPaid rest

/-- `true` on `Except.ok`. -/
def isOk {α : Type} (e : Except StarError α) : Bool :=
  match e with
  | .ok _ => true
  | .error _ => false

/-- The fixed value the in-repo stub `claim_fees_from_position`
(crank.rs:306-315) reports. -/
def claim_fees_stub : ClaimResult :=
  { base_amount := 0, quote_amount := 1000000 }

/-- `is_final_page_for_day` (crank.rs:318-325): the hardcoded page-10
heuristic. -/
def is_final_page_for_day (page : Nat) : Bool :=
  decide (10 ≤ page)

/-- The investor loop of the crank handler (crank.rs:167-221): per investor,
compute the weight and payout; if the payout is positive, transfer it and
accumulate `distributed_this_page` with `checked_add`. -/
def processInvestors (total_to_distribute total_locked min_payout_lamports : Nat) :
    List InvestorAccount → Nat → List Transfer → Except StarError (Nat × List Transfer)
  | [], distributed_this_page, txs => .ok (distributed_this_page, txs)
  | investor :: rest, distributed_this_page, txs =>
    match calculate_investor_weight investor.locked_amount total_locked with
    | .error e => .error e
    | .ok weight_bps =>
      match calculate_investor_payout total_to_distribute weight_bps min_payout_lamports with
      | .error e => .error e
      | .ok payout =>
        if 0 < payout then
          match checkedAdd64 distributed_this_page payout with
          | .error e => .error e
          | .ok distributed1 =>
            processInvestors total_to_distribute total_locked min_payout_lamports rest
              distributed1 (txs ++ [Transfer.toInvestor investor.investor_quote_ata payout])
        else
          processInvestors total_to_distribute total_locked min_payout_lamports rest
            distributed_this_page txs

/-- The day/time gate of the crank handler (crank.rs:86-97): a new day
resets the progress; otherwise the 24-hour gate must have elapsed. -/
def crank_gate (progress : Progress) (now : Int) : Except StarError Progress :=
  if progress.is_new_day now then .ok (progress.reset_for_new_day now)
  else if (86400 : Int) ≤ now - progress.last_distribution_ts then .ok progress
  else .error .DistributionTooEarly

/-- The crank handler after the page and gate checks (crank.rs:100-302):
day-complete check, non-empty-page check, base-fee detection, claim ledger
update, split computation, investor payouts, progress update and the
optional day close. -/
def crank_rest (policy : Policy) (progress1 : Progress) (page : Nat)
    (investor_accounts : List InvestorAccount) (claim_result : ClaimResult) :
    Except StarError (Progress × List Transfer) :=
  if progress1.day_complete then .error .DistributionAlreadyComplete
  else if investor_accounts.isEmpty then .error .NoLockedInvestors
  else
    match detect_base_fees claim_result with
    | .error e => .error e
    | .ok _ =>
      match checkedAdd64 progress1.claimed_today claim_result.quote_amount with
      | .error e => .error e
      | .ok claimed =>
        if (investor_accounts.map (fun a => a.locked_amount)).sum % 2 ^ 64 = 0 then
          .error .NoLockedInvestors
        else
          match calculate_eligible_share_bps
              ((investor_accounts.map (fun a => a.locked_amount)).sum % 2 ^ 64)
              policy.y0 policy.investor_fee_share_bps with
          | .error e => .error e
          | .ok eligible_share_bps =>
            match calculate_investor_fee_quote claim_result.quote_amount eligible_share_bps with
            | .error e => .error e
            | .ok total_investor_fee_quote =>
              match apply_daily_cap total_investor_fee_quote policy.daily_cap
                  progress1.distributed_today with
              | .error e => .error e
              | .ok capped_investor_fee =>
                match checkedAdd64 capped_investor_fee progress1.carry_over with
                | .error e => .error e
                | .ok total_to_distribute =>
                  match processInvestors total_to_distribute
                      ((investor_accounts.map (fun a => a.locked_amount)).sum % 2 ^ 64)
                      policy.min_payout_lamports investor_accounts 0 [] with
                  | .error e => .error e
                  | .ok (distributed_this_page, txs) =>
                    match checkedAdd64 progress1.distributed_today distributed_this_page with
                    | .error e => .error e
                    | .ok distributed1 =>
                      if is_final_page_for_day page then
                        .ok ({ progress1 with
                                claimed_today := claimed
                                distributed_today := distributed1
                                pagination_cursor := page
                                day_complete := true
                                carry_over := 0 },
                          if 0 < (checkedSub64 claimed distributed1).getD 0 then
                            txs ++ [Transfer.toCreator
                              ((checkedSub64 claimed distributed1).getD 0)]
                          else txs)
                      else
                        .ok ({ progress1 with
                                claimed_today := claimed
                                distributed_today := distributed1
                                carry_over :=
                                  (checkedSub64 total_to_distribute
                                    distributed_this_page).getD 0
                                pagination_cursor := page }, txs)

/-- The full crank handler (crank.rs:73-303), parameterised by the claim
result the external fee-claim collaborator reports.  On error nothing is
persisted and no transfer happens (Solana instruction atomicity). -/
def crank_handler (policy : Policy) (progress : Progress) (now : Int) (page : Nat)
    (investor_accounts : List InvestorAccount) (claim_result : ClaimResult) :
    Except StarError (Progress × List Transfer) :=
  if page = 0 then .error .InvalidPage
  else
    match crank_gate progress now with
    | .error e => .error e
    | .ok progress1 => crank_rest policy progress1 page investor_accounts claim_result

/-- The initialize handler (initialize.rs:67-148).  `pool_token_a` and
`pool_token_b` are the actual tokens of the CP-AMM pool account the caller
passes: the handler receives the account but never deserialises it — the
`PoolConfig` it validates is built from the `base_mint` / `quote_mint`
accounts (initialize.rs:86-92). -/
def initialize_handler (investor_fee_share_bps daily_cap min_payout_lamports y0 : Nat)
    (base_mint quote_mint _pool_token_a _pool_token_b treasury_mint vault : Nat)
    (now : Int) : Except StarError (Policy × Progress) :=
  if 10000 < investor_fee_share_bps then .error .InvalidFeeShareBps
  else if daily_cap = 0 then .error .InvalidDailyCap
  else if min_payout_lamports = 0 then .error .InvalidMinPayout
  else if y0 = 0 then .error .InvalidY0
  else
    let pool_config : PoolConfig := { token_a := base_mint, token_b := quote_mint }
    match validate_quote_only_pool pool_config quote_mint with
    | .error e => .error e
    | .ok _ =>
      let policy := Policy.new investor_fee_share_bps daily_cap min_payout_lamports y0
        quote_mint vault now
      match policy.validate with
      | .error e => .error e
      | .ok _ =>
        let progress := Progress.new vault
        if treasury_mint = quote_mint then .ok (policy, progress)
        else .error .InvalidQuoteMint

/-- The payout the investor loop computes for one investor, in the
overflow-free regime (`total_locked < 2 ^ 64`, `total_to_distribute < 2 ^ 64`,
`locked_amount ≤ total_locked`): the floor-weight composed with the
floor-payout and the dust filter. -/
def pagePayout (total_to_distribute total_locked min_payout_lamports : Nat)
    (inv : InvestorAccount) : Nat :=
  if total_to_distribute * (inv.locked_amount * 10000 / total_locked) / 10000
      < min_payout_lamports then 0
  else total_to_distribute * (inv.locked_amount * 10000 / total_locked) / 10000

/-! ### Arithmetic helper lemmas -/

/-- Floor division is superadditive. -/
lemma div_add_div_le (a b c : Nat) : a / c + b / c ≤ (a + b) / c := by
  rcases Nat.eq_zero_or_pos c with hc | hc
  · subst hc; simp
  · rw [Nat.le_div_iff_mul_le hc, Nat.add_mul]
    exact Nat.add_le_add (Nat.div_mul_le_self a c) (Nat.div_mul_le_self b c)

/-- Summing floor quotients is at most the floor quotient of the sum. -/
lemma list_div_sum_le (ns : List Nat) (d : Nat) :
    (ns.map (fun n => n / d)).sum ≤ ns.sum / d := by
  induction ns with
  | nil => simp
  | cons n rest ih =>
    simp only [List.map_cons, List.sum_cons]
    calc n / d + (rest.map (fun n => n / d)).sum
        ≤ n / d + rest.sum / d := Nat.add_le_add_left ih _
      _ ≤ (n + rest.sum) / d := div_add_div_le _ _ _

/-- A member of a list of naturals is at most the sum of the list. -/
lemma mem_le_list_sum {ns : List Nat} {a : Nat} (h : a ∈ ns) : a ≤ ns.sum :=
  List.single_le_sum (fun _ _ => Nat.zero_le _) a h

/-! ### Evaluation lemmas for the checked operations -/

lemma checkedAdd64_ok {a b c : Nat} (h : checkedAdd64 a b = .ok c) :
    c = a + b ∧ a + b < 2 ^ 64 := by
  unfold checkedAdd64 at h
  split at h
  · exact ⟨(Except.ok.inj h).symm, by assumption⟩
  · cases h

lemma checkedAdd64_of_lt {a b : Nat} (h : a + b < 2 ^ 64) :
    checkedAdd64 a b = .ok (a + b) := by
  unfold checkedAdd64
  rw [if_pos h]

lemma checkedAdd64_error {a b : Nat} {e : StarError} (h : checkedAdd64 a b = .error e) :
    e = .MathOverflow := by
  unfold checkedAdd64 at h
  split at h
  · cases h
  · exact (Except.error.inj h).symm

lemma checkedSub64_of_le {a b : Nat} (h : b ≤ a) : checkedSub64 a b = some (a - b) := by
  unfold checkedSub64
  rw [if_pos h]

/-! ### Evaluation lemmas for the distribution math -/

lemma detect_base_fees_ok {cr : ClaimResult} {u : Unit}
    (h : detect_base_fees cr = .ok u) : cr.base_amount = 0 := by
  unfold detect_base_fees at h
  split at h
  · assumption
  · cases h

lemma detect_base_fees_error {cr : ClaimResult} {e : StarError}
    (h : detect_base_fees cr = .error e) : e = .BaseFeeDetected ∧ cr.base_amount ≠ 0 := by
  unfold detect_base_fees at h
  split at h
  · cases h
  · exact ⟨(Except.error.inj h).symm, by assumption⟩

/-- A weight computed from a locked amount bounded by the total is at most
10000 basis points. -/
lemma weight_le_10000 {l L : Nat} (hL : 0 < L) (hl : l ≤ L) :
    l * 10000 / L ≤ 10000 := by
  calc l * 10000 / L ≤ L * 10000 / L :=
        Nat.div_le_div_right (Nat.mul_le_mul_right _ hl)
    _ = 10000 := Nat.mul_div_cancel_left 10000 hL

lemma calculate_investor_weight_eval {l L : Nat} (hL : 0 < L) (hL64 : L < 2 ^ 64)
    (hl : l ≤ L) : calculate_investor_weight l L = .ok (l * 10000 / L) := by
  have hLne : ¬ L = 0 := Nat.pos_iff_ne_zero.mp hL
  have hmul : l * 10000 < 2 ^ 128 := by
    calc l * 10000 ≤ L * 10000 := Nat.mul_le_mul_right _ hl
      _ < 2 ^ 64 * 10000 := (Nat.mul_lt_mul_right (by norm_num)).mpr hL64
      _ < 2 ^ 128 := by norm_num
  have hw : l * 10000 / L ≤ 10000 := weight_le_10000 hL hl
  have hmod : l * 10000 / L % 2 ^ 64 = l * 10000 / L :=
    Nat.mod_eq_of_lt (lt_of_le_of_lt hw (by norm_num))
  simp only [calculate_investor_weight, checkedMul128, checkedDiv128, if_neg hLne,
    if_pos hmul, hmod]

lemma calculate_investor_payout_eval {ttd w minp : Nat} (httd : ttd < 2 ^ 64)
    (hw : w ≤ 10000) :
    calculate_investor_payout ttd w minp =
      .ok (if ttd * w / 10000 < minp then 0 else ttd * w / 10000) := by
  have hmul : ttd * w < 2 ^ 128 := by
    calc ttd * w ≤ ttd * 10000 := Nat.mul_le_mul_left _ hw
      _ < 2 ^ 64 * 10000 := (Nat.mul_lt_mul_right (by norm_num)).mpr httd
      _ < 2 ^ 128 := by norm_num
  have hraw : ttd * w / 10000 ≤ ttd := by
    calc ttd * w / 10000 ≤ ttd * 10000 / 10000 :=
          Nat.div_le_div_right (Nat.mul_le_mul_left _ hw)
      _ = ttd := Nat.mul_div_cancel ttd (by norm_num)
  have hmod : ttd * w / 10000 % 2 ^ 64 = ttd * w / 10000 :=
    Nat.mod_eq_of_lt (lt_of_le_of_lt hraw httd)
  simp only [calculate_investor_payout, checkedMul128, checkedDiv128, if_pos hmul,
    if_neg (by norm_num : ¬ (10000 : Nat) = 0), hmod]
  split <;> rfl

/-- The clamped eligible share is bounded by 10000 whenever the policy's
maximum share is (the policy invariant). -/
lemma calculate_eligible_share_bps_le {L y0 share e : Nat} (hshare : share ≤ 10000)
    (h : calculate_eligible_share_bps L y0 share = .ok e) : e ≤ 10000 := by
  by_cases hy : y0 = 0
  · simp only [calculate_eligible_share_bps, if_pos hy] at h
    have he : 0 = e := Except.ok.inj h
    omega
  · by_cases hm : L * 10000 < 2 ^ 128
    · simp only [calculate_eligible_share_bps, checkedMul128, checkedDiv128, if_neg hy,
        if_pos hm] at h
      have he : min (L * 10000 / y0) share % 2 ^ 16 = e := Except.ok.inj h
      calc e = min (L * 10000 / y0) share % 2 ^ 16 := he.symm
        _ ≤ min (L * 10000 / y0) share := Nat.mod_le _ _
        _ ≤ share := min_le_right _ _
        _ ≤ 10000 := hshare
    · simp only [calculate_eligible_share_bps, checkedMul128, if_neg hy, if_neg hm] at h
      exact Except.noConfusion h

lemma calculate_investor_fee_quote_eval {q bps : Nat} (hq : q < 2 ^ 64)
    (hbps : bps ≤ 10000) :
    calculate_investor_fee_quote q bps = .ok (q * bps / 10000) := by
  by_cases hz : bps = 0
  · subst hz; simp [calculate_investor_fee_quote]
  · have hmul : q * bps < 2 ^ 128 := by
      calc q * bps ≤ q * 10000 := Nat.mul_le_mul_left _ hbps
        _ < 2 ^ 64 * 10000 := (Nat.mul_lt_mul_right (by norm_num)).mpr hq
        _ < 2 ^ 128 := by norm_num
    have hraw : q * bps / 10000 ≤ q := by
      calc q * bps / 10000 ≤ q * 10000 / 10000 :=
            Nat.div_le_div_right (Nat.mul_le_mul_left _ hbps)
        _ = q := Nat.mul_div_cancel q (by norm_num)
    have hmod : q * bps / 10000 % 2 ^ 64 = q * bps / 10000 :=
      Nat.mod_eq_of_lt (lt_of_le_of_lt hraw hq)
    simp only [calculate_investor_fee_quote, checkedMul128, checkedDiv128, if_neg hz,
      if_pos hmul, if_neg (by norm_num : ¬ (10000 : Nat) = 0), hmod]

lemma calculate_investor_fee_quote_le {q bps f : Nat} (hq : q < 2 ^ 64)
    (hbps : bps ≤ 10000) (h : calculate_investor_fee_quote q bps = .ok f) : f ≤ q := by
  rw [calculate_investor_fee_quote_eval hq hbps] at h
  have he : q * bps / 10000 = f := Except.ok.inj h
  calc f = q * bps / 10000 := he.symm
    _ ≤ q * 10000 / 10000 := Nat.div_le_div_right (Nat.mul_le_mul_left _ hbps)
    _ = q := Nat.mul_div_cancel q (by norm_num)

/-! ### The investor loop -/

lemma creatorPaid_append (a b : List Transfer) :
    creatorPaid (a ++ b) = creatorPaid a + creatorPaid b := by
  induction a with
  | nil => simp [creatorPaid]
  | cons t rest ih =>
    cases t with
    | toInvestor x y => simpa [creatorPaid] using ih
    | toCreator x => simp [creatorPaid, ih]; omega

lemma pagePayout_le {ttd L minp : Nat} (inv : InvestorAccount) :
    pagePayout ttd L minp inv ≤ ttd * (inv.locked_amount * 10000 / L) / 10000 := by
  unfold pagePayout
  split <;> omega

/-- The floor weights of a page whose locked amounts total at most `L` sum
to at most 10000 basis points. -/
lemma weights_sum_le {invs : List InvestorAccount} {L : Nat} (hL : 0 < L)
    (hsum : (invs.map (fun a => a.locked_amount)).sum ≤ L) :
    (invs.map (fun a => a.locked_amount * 10000 / L)).sum ≤ 10000 := by
  have h1 := list_div_sum_le (invs.map (fun a => a.locked_amount * 10000)) L
  rw [List.map_map] at h1
  simp only [Function.comp_def] at h1
  have h2 : (invs.map (fun a => a.locked_amount * 10000)).sum
      = (invs.map (fun a => a.locked_amount)).sum * 10000 :=
    List.sum_map_mul_right invs (fun a => a.locked_amount) 10000
  calc (invs.map (fun a => a.locked_amount * 10000 / L)).sum
      ≤ (invs.map (fun a => a.locked_amount * 10000)).sum / L := h1
    _ = (invs.map (fun a => a.locked_amount)).sum * 10000 / L := by rw [h2]
    _ ≤ L * 10000 / L := Nat.div_le_div_right (Nat.mul_le_mul_right _ hsum)
    _ = 10000 := Nat.mul_div_cancel_left 10000 hL

/-- The page payouts of a page whose locked amounts total at most `L` sum
to at most the total to distribute. -/
lemma pagePayouts_sum_le {invs : List InvestorAccount} {L ttd minp : Nat} (hL : 0 < L)
    (hsum : (invs.map (fun a => a.locked_amount)).sum ≤ L) :
    (invs.map (pagePayout ttd L minp)).sum ≤ ttd := by
  have h0 : (invs.map (pagePayout ttd L minp)).sum
      ≤ (invs.map (fun a => ttd * (a.locked_amount * 10000 / L) / 10000)).sum :=
    List.sum_le_sum (fun inv _ => pagePayout_le inv)
  have h1 := list_div_sum_le (invs.map (fun a => ttd * (a.locked_amount * 10000 / L))) 10000
  rw [List.map_map] at h1
  simp only [Function.comp_def] at h1
  have h2 : (invs.map (fun a => ttd * (a.locked_amount * 10000 / L))).sum
      = ttd * (invs.map (fun a => a.locked_amount * 10000 / L)).sum :=
    List.sum_map_mul_left invs (fun a => a.locked_amount * 10000 / L) ttd
  have h3 : ttd * (invs.map (fun a => a.locked_amount * 10000 / L)).sum ≤ ttd * 10000 :=
    Nat.mul_le_mul_left _ (weights_sum_le hL hsum)
  calc (invs.map (pagePayout ttd L minp)).sum
      ≤ (invs.map (fun a => ttd * (a.locked_amount * 10000 / L) / 10000)).sum := h0
    _ ≤ (invs.map (fun a => ttd * (a.locked_amount * 10000 / L))).sum / 10000 := h1
    _ = ttd * (invs.map (fun a => a.locked_amount * 10000 / L)).sum / 10000 := by rw [h2]
    _ ≤ ttd * 10000 / 10000 := Nat.div_le_div_right h3
    _ = ttd := Nat.mul_div_cancel ttd (by norm_num)

/-- A successful investor loop only appends investor transfers: the
creator-paid total of the transfer accumulator is unchanged. -/
lemma processInvestors_creatorPaid {ttd L minp : Nat} (invs : List InvestorAccount) :
    ∀ (dist : Nat) (txs : List Transfer) (d : Nat) (txs1 : List Transfer),
      processInvestors ttd L minp invs dist txs = .ok (d, txs1) →
      creatorPaid txs1 = creatorPaid txs := by
  induction invs with
  | nil =>
    intro dist txs d txs1 h
    unfold processInvestors at h
    have h2 := Except.ok.inj h
    cases h2
    rfl
  | cons inv rest ih =>
    intro dist txs d txs1 h
    unfold processInvestors at h
    split at h
    · cases h
    · split at h
      · cases h
      · split at h
        · split at h
          · cases h
          · have h2 := ih _ _ _ _ h
            rw [h2, creatorPaid_append]
            simp [creatorPaid]
        · exact ih _ _ _ _ h

/-- Exact evaluation of the investor loop in the overflow-free regime: it
succeeds and distributes exactly the sum of the page payouts. -/
lemma processInvestors_eval {ttd L minp : Nat} (hL : 0 < L) (hL64 : L < 2 ^ 64)
    (httd : ttd < 2 ^ 64) (invs : List InvestorAccount) :
    ∀ (dist : Nat) (txs : List Transfer),
      (∀ inv ∈ invs, inv.locked_amount ≤ L) →
      dist + (invs.map (pagePayout ttd L minp)).sum < 2 ^ 64 →
      ∃ txs1, processInvestors ttd L minp invs dist txs =
        .ok (dist + (invs.map (pagePayout ttd L minp)).sum, txs1) := by
  induction invs with
  | nil =>
    intro dist txs _ _
    exact ⟨txs, by simp [processInvestors]⟩
  | cons inv rest ih =>
    intro dist txs hmem hbound
    have hl : inv.locked_amount ≤ L := hmem inv (List.mem_cons_self _ _)
    have hw := calculate_investor_weight_eval hL hL64 hl
    have hwle : inv.locked_amount * 10000 / L ≤ 10000 := weight_le_10000 hL hl
    have hp := @calculate_investor_payout_eval ttd (inv.locked_amount * 10000 / L) minp
      httd hwle
    have hpp : (if ttd * (inv.locked_amount * 10000 / L) / 10000 < minp then 0
        else ttd * (inv.locked_amount * 10000 / L) / 10000) = pagePayout ttd L minp inv := rfl
    rw [hpp] at hp
    simp only [List.map_cons, List.sum_cons] at hbound ⊢
    by_cases hpos : 0 < pagePayout ttd L minp inv
    · have hadd : checkedAdd64 dist (pagePayout ttd L minp inv) =
          .ok (dist + pagePayout ttd L minp inv) :=
        checkedAdd64_of_lt (by omega)
      obtain ⟨txs1, hrec⟩ := ih (dist + pagePayout ttd L minp inv)
        (txs ++ [Transfer.toInvestor inv.investor_quote_ata (pagePayout ttd L minp inv)])
        (fun i hi => hmem i (List.mem_cons_of_mem _ hi)) (by omega)
      refine ⟨txs1, ?_⟩
      simp only [processInvestors, hw, hp, if_pos hpos, hadd, hrec]
      rw [← Nat.add_assoc]
    · obtain ⟨txs1, hrec⟩ := ih dist txs
        (fun i hi => hmem i (List.mem_cons_of_mem _ hi)) (by omega)
      refine ⟨txs1, ?_⟩
      simp only [processInvestors, hw, hp, if_neg hpos, hrec]
      have hz : pagePayout ttd L minp inv = 0 := by omega
      rw [hz, Nat.zero_add]

/-! ### The crank gate -/

lemma crank_gate_new {prog : Progress} {now : Int}
    (h : prog.last_distribution_ts + 86400 ≤ now) :
    crank_gate prog now = .ok (prog.reset_for_new_day now) := by
  simp [crank_gate, Progress.is_new_day, h]

lemma crank_gate_early {prog : Progress} {now : Int}
    (h : now < prog.last_distribution_ts + 86400) :
    crank_gate prog now = .error .DistributionTooEarly := by
  have h1 : ¬ (prog.last_distribution_ts + 86400 ≤ now) := not_le.mpr h
  have h2 : ¬ ((86400 : Int) ≤ now - prog.last_distribution_ts) := by omega
  simp [crank_gate, Progress.is_new_day, h1, h2]

lemma crank_gate_ok_inv {prog : Progress} {now : Int} {prog1 : Progress}
    (h : crank_gate prog now = .ok prog1) :
    prog.last_distribution_ts + 86400 ≤ now ∧ prog1 = prog.reset_for_new_day now := by
  by_cases hc : prog.last_distribution_ts + 86400 ≤ now
  · rw [crank_gate_new hc] at h
    exact ⟨hc, (Except.ok.inj h).symm⟩
  · rw [crank_gate_early (not_le.mp hc)] at h
    exact Except.noConfusion h

/-! ### Error classification -/

lemma calculate_eligible_share_bps_error {L y0 share : Nat} {e : StarError}
    (h : calculate_eligible_share_bps L y0 share = .error e) : e = .MathOverflow := by
  by_cases hy : y0 = 0
  · simp only [calculate_eligible_share_bps, if_pos hy] at h
    exact Except.noConfusion h
  · by_cases hm : L * 10000 < 2 ^ 128
    · simp only [calculate_eligible_share_bps, checkedMul128, checkedDiv128, if_neg hy,
        if_pos hm] at h
      exact Except.noConfusion h
    · simp only [calculate_eligible_share_bps, checkedMul128, if_neg hy, if_neg hm] at h
      exact (Except.error.inj h).symm

lemma calculate_investor_fee_quote_error {q bps : Nat} {e : StarError}
    (h : calculate_investor_fee_quote q bps = .error e) : e = .MathOverflow := by
  by_cases hz : bps = 0
  · simp only [calculate_investor_fee_quote, if_pos hz] at h
    exact Except.noConfusion h
  · by_cases hm : q * bps < 2 ^ 128
    · simp only [calculate_investor_fee_quote, checkedMul128, checkedDiv128, if_neg hz,
        if_pos hm, if_neg (by norm_num : ¬ (10000 : Nat) = 0)] at h
      exact Except.noConfusion h
    · simp only [calculate_investor_fee_quote, checkedMul128, if_neg hz, if_neg hm] at h
      exact (Except.error.inj h).symm

lemma calculate_investor_weight_error {l L : Nat} {e : StarError}
    (h : calculate_investor_weight l L = .error e) : e = .MathOverflow := by
  by_cases hz : L = 0
  · simp only [calculate_investor_weight, if_pos hz] at h
    exact Except.noConfusion h
  · by_cases hm : l * 10000 < 2 ^ 128
    · simp only [calculate_investor_weight, checkedMul128, checkedDiv128, if_neg hz,
        if_pos hm] at h
      exact Except.noConfusion h
    · simp only [calculate_investor_weight, checkedMul128, if_neg hz, if_neg hm] at h
      exact (Except.error.inj h).symm

lemma calculate_investor_payout_error {ttd w minp : Nat} {e : StarError}
    (h : calculate_investor_payout ttd w minp = .error e) : e = .MathOverflow := by
  by_cases hm : ttd * w < 2 ^ 128
  · simp only [calculate_investor_payout, checkedMul128, checkedDiv128, if_pos hm,
      if_neg (by norm_num : ¬ (10000 : Nat) = 0)] at h
    split at h <;> exact Except.noConfusion h
  · simp only [calculate_investor_payout, checkedMul128, if_neg hm] at h
    exact (Except.error.inj h).symm

lemma processInvestors_error {ttd L minp : Nat} (invs : List InvestorAccount) :
    ∀ (dist : Nat) (txs : List Transfer) (e : StarError),
      processInvestors ttd L minp invs dist txs = .error e → e = .MathOverflow := by
  induction invs with
  | nil =>
    intro dist txs e h
    unfold processInvestors at h
    exact Except.noConfusion h
  | cons inv rest ih =>
    intro dist txs e h
    unfold processInvestors at h
    split at h
    · next e1 heq =>
        have h2 := Except.error.inj h
        subst h2
        exact calculate_investor_weight_error heq
    · split at h
      · next e1 heq =>
          have h2 := Except.error.inj h
          subst h2
          exact calculate_investor_payout_error heq
      · split at h
        · split at h
          · next e1 heq =>
              have h2 := Except.error.inj h
              subst h2
              exact checkedAdd64_error heq
          · exact ih _ _ _ h
        · exact ih _ _ _ h

/-- Every error exit of the post-gate crank body is one of the four listed
codes; in particular it is never `DistributionTooEarly`. -/
lemma crank_rest_error_cases {pol : Policy} {prog1 : Progress} {page : Nat}
    {invs : List InvestorAccount} {cr : ClaimResult} {e : StarError}
    (h : crank_rest pol prog1 page invs cr = .error e) :
    e = .DistributionAlreadyComplete ∨ e = .NoLockedInvestors ∨
      e = .BaseFeeDetected ∨ e = .MathOverflow := by
  unfold crank_rest at h
  split at h
  · exact Or.inl (Except.error.inj h).symm
  split at h
  · exact Or.inr (Or.inl (Except.error.inj h).symm)
  split at h
  next e1 heq =>
    have h2 := Except.error.inj h
    subst h2
    exact Or.inr (Or.inr (Or.inl (detect_base_fees_error heq).1))
  split at h
  next e1 heq =>
    have h2 := Except.error.inj h
    subst h2
    exact Or.inr (Or.inr (Or.inr (checkedAdd64_error heq)))
  split at h
  · exact Or.inr (Or.inl (Except.error.inj h).symm)
  split at h
  next e1 heq =>
    have h2 := Except.error.inj h
    subst h2
    exact Or.inr (Or.inr (Or.inr (calculate_eligible_share_bps_error heq)))
  split at h
  next e1 heq =>
    have h2 := Except.error.inj h
    subst h2
    exact Or.inr (Or.inr (Or.inr (calculate_investor_fee_quote_error heq)))
  split at h
  next e1 heq => exact Except.noConfusion heq
  split at h
  next e1 heq =>
    have h2 := Except.error.inj h
    subst h2
    exact Or.inr (Or.inr (Or.inr (checkedAdd64_error heq)))
  split at h
  next e1 heq =>
    have h2 := Except.error.inj h
    subst h2
    exact Or.inr (Or.inr (Or.inr (processInvestors_error _ _ _ _ heq)))
  split at h
  next e1 heq =>
    have h2 := Except.error.inj h
    subst h2
    exact Or.inr (Or.inr (Or.inr (checkedAdd64_error heq)))
  split at h
  · exact Except.noConfusion h
  · exact Except.noConfusion h

/-- Inversion of a successful post-gate crank body: recovers every
intermediate value of the computation. -/
lemma crank_rest_ok_inv {pol : Policy} {prog1 : Progress} {page : Nat}
    {invs : List InvestorAccount} {cr : ClaimResult} {p1 : Progress}
    {txs : List Transfer}
    (h : crank_rest pol prog1 page invs cr = .ok (p1, txs)) :
    prog1.day_complete = false ∧
    invs.isEmpty = false ∧
    cr.base_amount = 0 ∧
    ∃ claimed eligible fee capped ttd d dist1 txs0,
      checkedAdd64 prog1.claimed_today cr.quote_amount = .ok claimed ∧
      (invs.map (fun a => a.locked_amount)).sum % 2 ^ 64 ≠ 0 ∧
      calculate_eligible_share_bps ((invs.map (fun a => a.locked_amount)).sum % 2 ^ 64)
        pol.y0 pol.investor_fee_share_bps = .ok eligible ∧
      calculate_investor_fee_quote cr.quote_amount eligible = .ok fee ∧
      apply_daily_cap fee pol.daily_cap prog1.distributed_today = .ok capped ∧
      checkedAdd64 capped prog1.carry_over = .ok ttd ∧
      processInvestors ttd ((invs.map (fun a => a.locked_amount)).sum % 2 ^ 64)
        pol.min_payout_lamports invs 0 [] = .ok (d, txs0) ∧
      checkedAdd64 prog1.distributed_today d = .ok dist1 ∧
      ((is_final_page_for_day page = true ∧
          p1 = { prog1 with
                 claimed_today := claimed
                 distributed_today := dist1
                 pagination_cursor := page
                 day_complete := true
                 carry_over := 0 } ∧
          txs = (if 0 < (checkedSub64 claimed dist1).getD 0 then
                   txs0 ++ [Transfer.toCreator ((checkedSub64 claimed dist1).getD 0)]
                 else txs0)) ∨
        (is_final_page_for_day page = false ∧
          p1 = { prog1 with
                 claimed_today := claimed
                 distributed_today := dist1
                 carry_over := (checkedSub64 ttd d).getD 0
                 pagination_cursor := page } ∧
          txs = txs0)) := by
  unfold crank_rest at h
  split at h
  next => exact Except.noConfusion h
  next hdc =>
  split at h
  next => exact Except.noConfusion h
  next hne =>
  split at h
  next e1 heq => exact Except.noConfusion h
  next u hdet =>
  split at h
  next e1 heq => exact Except.noConfusion h
  next claimed hclaimed =>
  split at h
  next => exact Except.noConfusion h
  next hL0 =>
  split at h
  next e1 heq => exact Except.noConfusion h
  next eligible helig =>
  split at h
  next e1 heq => exact Except.noConfusion h
  next fee hfee =>
  split at h
  next e1 heq => exact Except.noConfusion h
  next capped hcap =>
  split at h
  next e1 heq => exact Except.noConfusion h
  next ttd httd2 =>
  split at h
  next e1 heq => exact Except.noConfusion h
  next d txs0 hpi =>
  split at h
  next e1 heq => exact Except.noConfusion h
  next dist1 hdist =>
  have hdc2 : prog1.day_complete = false := by simpa using hdc
  have hne2 : invs.isEmpty = false := by simpa using hne
  split at h
  next hfin =>
    have h2 := Except.ok.inj h
    injection h2 with hP hT
    exact ⟨hdc2, hne2, detect_base_fees_ok hdet, claimed, eligible, fee, capped, ttd, d,
      dist1, txs0, hclaimed, hL0, helig, hfee, hcap, httd2, hpi, hdist,
      Or.inl ⟨hfin, hP.symm, hT.symm⟩⟩
  next hfin =>
    have h2 := Except.ok.inj h
    injection h2 with hP hT
    have hfin2 : is_final_page_for_day page = false := by simpa using hfin
    exact ⟨hdc2, hne2, detect_base_fees_ok hdet, claimed, eligible, fee, capped, ttd, d,
      dist1, txs0, hclaimed, hL0, helig, hfee, hcap, httd2, hpi, hdist,
      Or.inr ⟨hfin2, hP.symm, hT.symm⟩⟩

/-- Inversion of a successful crank call: the page is positive, the call was
a new-day call (the only way past the gate), and the post-gate body ran on
the reset state. -/
lemma crank_handler_ok_inv {pol : Policy} {prog : Progress} {now : Int} {page : Nat}
    {invs : List InvestorAccount} {cr : ClaimResult} {p1 : Progress}
    {txs : List Transfer}
    (h : crank_handler pol prog now page invs cr = .ok (p1, txs)) :
    page ≠ 0 ∧ prog.last_distribution_ts + 86400 ≤ now ∧
      crank_rest pol (prog.reset_for_new_day now) page invs cr = .ok (p1, txs) := by
  unfold crank_handler at h
  split at h
  next => exact Except.noConfusion h
  next hpage =>
  split at h
  next e1 heq => exact Except.noConfusion h
  next prog1 hg =>
  obtain ⟨hnow, hp1⟩ := crank_gate_ok_inv hg
  subst hp1
  exact ⟨hpage, hnow, h⟩

/-! ## Claims -/

/-- Claim C7 (corrected): for every `u64` `locked_total` and `u16` `max_bps`,
`calculate_eligible_share_bps` succeeds and returns
`floor(locked_total * 10000 / y0)` clamped to `max_bps` (0 when `y0 = 0`);
the result is always ≤ `max_bps`, and it is ≤ 10000 whenever
`max_bps ≤ 10000` — the unconditional "≤ 10000" fails for
`max_bps > 10000` (see the counterexample). -/
theorem eligible_share_bps_clamped (lt y0 maxb : Nat) (hlt : lt < 2 ^ 64)
    (hmax : maxb < 2 ^ 16) :
    ∃ b, calculate_eligible_share_bps lt y0 maxb = .ok b ∧
      b ≤ maxb ∧
      (y0 = 0 → b = 0) ∧
      (y0 ≠ 0 → b = min (lt * 10000 / y0) maxb) ∧
      (maxb ≤ 10000 → b ≤ 10000) := by
  by_cases hy : y0 = 0
  · exact ⟨0, by simp [calculate_eligible_share_bps, hy], Nat.zero_le _, fun _ => rfl,
      fun hne => absurd hy hne, fun _ => Nat.zero_le _⟩
  · have hm : lt * 10000 < 2 ^ 128 := by
      calc lt * 10000 < 2 ^ 64 * 10000 := (Nat.mul_lt_mul_right (by norm_num)).mpr hlt
        _ < 2 ^ 128 := by norm_num
    have hmod : min (lt * 10000 / y0) maxb % 2 ^ 16 = min (lt * 10000 / y0) maxb :=
      Nat.mod_eq_of_lt (lt_of_le_of_lt (min_le_right _ _) hmax)
    refine ⟨min (lt * 10000 / y0) maxb, ?_, min_le_right _ _, fun hy2 => absurd hy2 hy,
      fun _ => rfl, fun hb => le_trans (min_le_right _ _) hb⟩
    simp only [calculate_eligible_share_bps, checkedMul128, checkedDiv128, if_neg hy,
      if_pos hm, hmod]

/-- Witness for C7 at the spec's scenario numbers. -/
theorem eligible_share_bps_clamped_witness :
    ∃ b, calculate_eligible_share_bps 500000 1000000 5000 = .ok b ∧
      b ≤ 5000 ∧
      ((1000000 : Nat) = 0 → b = 0) ∧
      ((1000000 : Nat) ≠ 0 → b = min (500000 * 10000 / 1000000) 5000) ∧
      ((5000 : Nat) ≤ 10000 → b ≤ 10000) :=
  eligible_share_bps_clamped 500000 1000000 5000 (by norm_num) (by norm_num)

/-- Counterexample to C7 as stated: `max_bps = 20000` is a representable
`u16`, and the clamped result 20000 exceeds 10000. -/
theorem eligible_share_bps_exceeds_10000 :
    calculate_eligible_share_bps 2 1 20000 = .ok 20000 ∧ ¬ (20000 : Nat) ≤ 10000 :=
  ⟨rfl, by decide⟩

/-- Claim C6 (corrected): for `weight_bps ≤ 10000` — always the case in the
crank, whose weights are `floor(locked * 10000 / total)` with
`locked ≤ total` — the payout is `floor(ttd * weight_bps / 10000)`, zeroed
entirely when strictly below `min_payout`; and a page whose computed payout
is sub-threshold transfers nothing and distributes 0, so in the crank the
whole amount falls through to the carry-over ledger (`ttd - 0`).  For
`weight_bps > 10000` the `u128 → u64` cast can truncate (see the
counterexample). -/
theorem investor_payout_dust_filter (ttd w minp : Nat) (httd : ttd < 2 ^ 64)
    (hw : w ≤ 10000) :
    calculate_investor_payout ttd w minp =
      .ok (if ttd * w / 10000 < minp then 0 else ttd * w / 10000) ∧
    (∀ inv : InvestorAccount, ∀ L : Nat, 0 < L → L < 2 ^ 64 →
      inv.locked_amount ≤ L →
      ttd * (inv.locked_amount * 10000 / L) / 10000 < minp →
      processInvestors ttd L minp [inv] 0 [] = .ok (0, [])) := by
  constructor
  · exact calculate_investor_payout_eval httd hw
  · intro inv L hL hL64 hl hdust
    have hw2 := calculate_investor_weight_eval hL hL64 hl
    have hwle := weight_le_10000 hL hl
    have hp := @calculate_investor_payout_eval ttd (inv.locked_amount * 10000 / L) minp
      httd hwle
    rw [if_pos hdust] at hp
    simp [processInvestors, hw2, hp]

/-- Witness for C6 at concrete inputs: payout 99 is below the threshold 100
and pays exactly 0; a single sub-threshold investor page distributes 0 with
no transfer. -/
theorem investor_payout_dust_filter_witness :
    calculate_investor_payout 100 9999 100 = .ok 0 ∧
    processInvestors 100 1000 100 [⟨1, 2, 500, 0⟩] 0 [] = .ok (0, []) := by
  have h := investor_payout_dust_filter 100 9999 100 (by norm_num) (by norm_num)
  refine ⟨?_, ?_⟩
  · rw [h.1]
    rfl
  · exact h.2 ⟨1, 2, 500, 0⟩ 1000 (by decide) (by decide) (by decide) (by decide)

/-- Counterexample to C6 as stated: with `weight_bps = 20000` the `u128 → u64`
cast truncates, so the result is not `floor(ttd * weight_bps / 10000)`. -/
theorem investor_payout_truncates :
    calculate_investor_payout 18446744073709551615 20000 0 =
      .ok 18446744073709551614 ∧
    (18446744073709551615 : Nat) * 20000 / 10000 ≠ 18446744073709551614 :=
  ⟨rfl, by decide⟩

/-- Claim C8 (corrected): for a `u64` `claimed_quote` and
`eligible_share_bps ≤ 10000` (the crank always passes a value clamped to the
policy share, which is ≤ 10000), `investor_fee_quote` is exactly
`floor(claimed_quote * bps / 10000)` — in particular 0 when `bps = 0` — and
the spec's scenario evaluates as claimed.  For `bps > 10000` the
`u128 → u64` cast can truncate (see the counterexample). -/
theorem investor_fee_quote_formula (cq bps : Nat) (hcq : cq < 2 ^ 64)
    (hbps : bps ≤ 10000) :
    calculate_investor_fee_quote cq bps = .ok (cq * bps / 10000) ∧
    calculate_eligible_share_bps 500000 1000000 5000 = .ok 5000 ∧
    calculate_investor_fee_quote 100000 5000 = .ok 50000 :=
  ⟨calculate_investor_fee_quote_eval hcq hbps, rfl, rfl⟩

/-- Witness for C8 at the spec's scenario numbers. -/
theorem investor_fee_quote_formula_witness :
    calculate_investor_fee_quote 100000 5000 = .ok (100000 * 5000 / 10000) ∧
    calculate_eligible_share_bps 500000 1000000 5000 = .ok 5000 ∧
    calculate_investor_fee_quote 100000 5000 = .ok 50000 :=
  investor_fee_quote_formula 100000 5000 (by norm_num) (by norm_num)

/-- Counterexample to C8 as stated: with `bps = 20000` (representable, but
above 10000) the `u128 → u64` cast truncates, so the result is not
`floor(claimed_quote * bps / 10000)`. -/
theorem investor_fee_quote_truncates :
    calculate_investor_fee_quote 18446744073709551615 20000 =
      .ok 18446744073709551614 ∧
    (18446744073709551615 : Nat) * 20000 / 10000 ≠ 18446744073709551614 :=
  ⟨rfl, by decide⟩

/-- Claim C10 (confirmed): for a non-empty page whose locked amounts sum to a
positive `u64` total, the investor loop succeeds and distributes exactly the
sum of the per-investor payouts
`investor_payout(ttd, investor_weight(locked, total), min_payout)`; that sum
never exceeds the total to distribute (the floor weights sum to at most
10000 bps), so the crank's carry-over subtraction
`checked_sub(total_to_distribute, distributed_this_page)` never takes its
saturating fallback. -/
theorem payout_sum_le_total (invs : List InvestorAccount) (ttd minp : Nat)
    (_hne : invs ≠ [])
    (hpos : 0 < (invs.map (fun a => a.locked_amount)).sum)
    (hsum : (invs.map (fun a => a.locked_amount)).sum < 2 ^ 64)
    (httd : ttd < 2 ^ 64) :
    ∃ txs, processInvestors ttd ((invs.map (fun a => a.locked_amount)).sum) minp invs 0 []
        = .ok ((invs.map
            (pagePayout ttd ((invs.map (fun a => a.locked_amount)).sum) minp)).sum, txs) ∧
      (invs.map (pagePayout ttd ((invs.map (fun a => a.locked_amount)).sum) minp)).sum
        ≤ ttd ∧
      checkedSub64 ttd
          ((invs.map (pagePayout ttd ((invs.map (fun a => a.locked_amount)).sum) minp)).sum)
        = some (ttd -
            (invs.map (pagePayout ttd ((invs.map (fun a => a.locked_amount)).sum) minp)).sum) := by
  have hmem : ∀ inv ∈ invs, inv.locked_amount ≤ (invs.map (fun a => a.locked_amount)).sum :=
    fun inv hi => mem_le_list_sum (List.mem_map_of_mem _ hi)
  have hS : (invs.map (pagePayout ttd ((invs.map (fun a => a.locked_amount)).sum) minp)).sum
      ≤ ttd := pagePayouts_sum_le hpos (le_refl _)
  obtain ⟨txs, hrun⟩ := @processInvestors_eval ttd ((invs.map (fun a => a.locked_amount)).sum)
    minp hpos hsum httd invs 0 [] hmem (by omega)
  refine ⟨txs, ?_, hS, checkedSub64_of_le hS⟩
  simpa using hrun

/-- Witness for C10 at the spec's two-investor scenario: locked `{300, 700}`,
total 1000, payouts `{300, 700}`, distributed 1000 = total, carry-over 0. -/
theorem payout_sum_le_total_witness :
    ∃ txs, processInvestors 1000
        (([⟨1, 2, 300, 0⟩, ⟨3, 4, 700, 0⟩] : List InvestorAccount).map
          (fun a => a.locked_amount)).sum 1 [⟨1, 2, 300, 0⟩, ⟨3, 4, 700, 0⟩] 0 []
        = .ok ((([⟨1, 2, 300, 0⟩, ⟨3, 4, 700, 0⟩] : List InvestorAccount).map
            (pagePayout 1000
              (([⟨1, 2, 300, 0⟩, ⟨3, 4, 700, 0⟩] : List InvestorAccount).map
                (fun a => a.locked_amount)).sum 1)).sum, txs) ∧
      (([⟨1, 2, 300, 0⟩, ⟨3, 4, 700, 0⟩] : List InvestorAccount).map
        (pagePayout 1000
          (([⟨1, 2, 300, 0⟩, ⟨3, 4, 700, 0⟩] : List InvestorAccount).map
            (fun a => a.locked_amount)).sum 1)).sum ≤ 1000 ∧
      checkedSub64 1000
          (([⟨1, 2, 300, 0⟩, ⟨3, 4, 700, 0⟩] : List InvestorAccount).map
            (pagePayout 1000
              (([⟨1, 2, 300, 0⟩, ⟨3, 4, 700, 0⟩] : List InvestorAccount).map
                (fun a => a.locked_amount)).sum 1)).sum
        = some (1000 -
            (([⟨1, 2, 300, 0⟩, ⟨3, 4, 700, 0⟩] : List InvestorAccount).map
              (pagePayout 1000
                (([⟨1, 2, 300, 0⟩, ⟨3, 4, 700, 0⟩] : List InvestorAccount).map
                  (fun a => a.locked_amount)).sum 1)).sum) :=
  payout_sum_le_total [⟨1, 2, 300, 0⟩, ⟨3, 4, 700, 0⟩] 1000 1 (by decide) (by decide)
    (by decide) (by decide)

/-- Claim C5 (confirmed): `detect_base_fees` fails with `BaseFeeDetected` iff
the claim's `base_amount` is nonzero; in the crank any nonzero base amount —
whatever the quote amount — makes the whole call fail (never return a
post-state), and under the conditions that reach the detection step it fails
with exactly `BaseFeeDetected`; an error result persists no `Progress`
mutation and emits no transfer (instruction atomicity). -/
theorem detect_base_fees_aborts (cr : ClaimResult) (pol : Policy) (prog : Progress)
    (now : Int) (page : Nat) (invs : List InvestorAccount) :
    (detect_base_fees cr = .error .BaseFeeDetected ↔ cr.base_amount ≠ 0) ∧
    (cr.base_amount ≠ 0 → ∀ out, crank_handler pol prog now page invs cr ≠ .ok out) ∧
    (cr.base_amount ≠ 0 → page ≠ 0 → prog.last_distribution_ts + 86400 ≤ now →
      invs.isEmpty = false →
      crank_handler pol prog now page invs cr = .error .BaseFeeDetected) := by
  refine ⟨?_, ?_, ?_⟩
  · constructor
    · intro h hb
      simp [detect_base_fees, hb] at h
    · intro hb
      simp [detect_base_fees, hb]
  · intro hb out h
    obtain ⟨p1, txs⟩ := out
    obtain ⟨_, _, hrest⟩ := crank_handler_ok_inv h
    exact absurd (crank_rest_ok_inv hrest).2.2.1 hb
  · intro hb hpage hnow hne
    have hdet : detect_base_fees cr = .error .BaseFeeDetected := by
      simp [detect_base_fees, hb]
    simp [crank_handler, if_neg hpage, crank_gate_new hnow, crank_rest,
      Progress.reset_for_new_day, hne, hdet]

/-- Witness for C5: a claim result with `base_amount = 1` (quote 5) is
rejected, and a crank receiving it fails with `BaseFeeDetected`. -/
theorem detect_base_fees_aborts_witness :
    detect_base_fees ⟨1, 5⟩ = .error .BaseFeeDetected ∧
    crank_handler ⟨10000, 1000000000000, 1, 1000, 1, 1, 0⟩ (Progress.new 1) 86400 1
      [⟨1, 2, 1000, 0⟩] ⟨1, 5⟩ = .error .BaseFeeDetected := by
  have h := detect_base_fees_aborts ⟨1, 5⟩ ⟨10000, 1000000000000, 1, 1000, 1, 1, 0⟩
    (Progress.new 1) 86400 1 [⟨1, 2, 1000, 0⟩]
  exact ⟨h.1.mpr (by decide), h.2.2 (by decide) (by decide) (by decide) (by decide)⟩

/-- Claim C4 (confirmed): with a valid page number, a crank at
`last_distribution_ts + 86399` fails with `DistributionTooEarly`; at
`last_distribution_ts + 86400` the timing gate passes (the call never
returns `DistributionTooEarly`, the boundary being inclusive); and the gate
applies uniformly to every call: any call strictly before the 24-hour mark
fails with `DistributionTooEarly` regardless of the rest of the state. -/
theorem crank_day_gate_boundary (pol : Policy) (prog : Progress) (page : Nat)
    (invs : List InvestorAccount) (cr : ClaimResult) (hpage : page ≠ 0) :
    crank_handler pol prog (prog.last_distribution_ts + 86399) page invs cr
        = .error .DistributionTooEarly ∧
    crank_handler pol prog (prog.last_distribution_ts + 86400) page invs cr
        ≠ .error .DistributionTooEarly ∧
    (∀ now : Int, now < prog.last_distribution_ts + 86400 →
      crank_handler pol prog now page invs cr = .error .DistributionTooEarly) := by
  have huni : ∀ now : Int, now < prog.last_distribution_ts + 86400 →
      crank_handler pol prog now page invs cr = .error .DistributionTooEarly := by
    intro now hlt
    simp [crank_handler, if_neg hpage, crank_gate_early hlt]
  refine ⟨huni _ (by omega), ?_, huni⟩
  intro h
  simp only [crank_handler, if_neg hpage, crank_gate_new (le_refl _)] at h
  rcases crank_rest_error_cases h with h1 | h1 | h1 | h1 <;> exact absurd h1 (by decide)

/-- Witness for C4 at a concrete state (`last_distribution_ts = 0`): 86399
fails with `DistributionTooEarly`, 86400 passes the gate, and an arbitrary
earlier time (50000) also fails. -/
theorem crank_day_gate_boundary_witness :
    crank_handler ⟨10000, 1000000000000, 1, 1000, 1, 1, 0⟩ (Progress.new 1)
      ((Progress.new 1).last_distribution_ts + 86399) 1 [⟨1, 2, 1000, 0⟩] ⟨0, 1000000⟩
      = .error .DistributionTooEarly ∧
    crank_handler ⟨10000, 1000000000000, 1, 1000, 1, 1, 0⟩ (Progress.new 1)
      ((Progress.new 1).last_distribution_ts + 86400) 1 [⟨1, 2, 1000, 0⟩] ⟨0, 1000000⟩
      ≠ .error .DistributionTooEarly ∧
    crank_handler ⟨10000, 1000000000000, 1, 1000, 1, 1, 0⟩ (Progress.new 1) 50000 1
      [⟨1, 2, 1000, 0⟩] ⟨0, 1000000⟩ = .error .DistributionTooEarly := by
  have h := crank_day_gate_boundary ⟨10000, 1000000000000, 1, 1000, 1, 1, 0⟩
    (Progress.new 1) 1 [⟨1, 2, 1000, 0⟩] ⟨0, 1000000⟩ (by decide)
  exact ⟨h.1, h.2.1, h.2.2 50000 (by decide)⟩

/-- Claim C2 (corrected): within the same day — strictly before 24 hours
since `last_distribution_ts` — every crank call, in particular a
resubmission with `page ≤ pagination_cursor`, fails with
`DistributionTooEarly` and persists nothing (so the cursor never regresses
within a day).  The handler has no explicit cursor-monotonicity check: once
24 hours elapse the day resets the cursor to 0 and a previously processed
page number is accepted and reprocessed (see the counterexample). -/
theorem crank_stale_page_rejected_same_day (pol : Policy) (prog : Progress)
    (now : Int) (page : Nat) (invs : List InvestorAccount) (cr : ClaimResult)
    (hpage : page ≠ 0) (_hstale : page ≤ prog.pagination_cursor)
    (hday : now < prog.last_distribution_ts + 86400) :
    crank_handler pol prog now page invs cr = .error .DistributionTooEarly := by
  simp [crank_handler, if_neg hpage, crank_gate_early hday]

/-- Witness for C2's amended statement: cursor 5, resubmitting page 3 at
86399 seconds after the last distribution fails with `DistributionTooEarly`. -/
theorem crank_stale_page_rejected_same_day_witness :
    crank_handler ⟨10000, 1000000000000, 1, 1000, 1, 1, 0⟩
      ⟨86400, 1000000, 0, 5, 1, 1000000, false, 1⟩ 172799 3
      [⟨1, 2, 1000, 0⟩] ⟨0, 1000000⟩ = .error .DistributionTooEarly :=
  crank_stale_page_rejected_same_day ⟨10000, 1000000000000, 1, 1000, 1, 1, 0⟩
    ⟨86400, 1000000, 0, 5, 1, 1000000, false, 1⟩ 172799 3 [⟨1, 2, 1000, 0⟩]
    ⟨0, 1000000⟩ (by decide) (by decide) (by decide)

/-- Counterexample to C2 as stated: page 5 is processed successfully (cursor
becomes 5); the next day the already-used page number 3 ≤ 5 is accepted and
fully reprocessed — state mutates and a payout happens — instead of failing. -/
theorem crank_stale_page_accepted_next_day :
    crank_handler ⟨10000, 1000000000000, 1, 1000, 1, 1, 0⟩ (Progress.new 1) 86400 5
      [⟨1, 2, 1000, 0⟩] ⟨0, 1000000⟩ =
      .ok (⟨86400, 1000000, 0, 5, 1, 1000000, false, 1⟩,
        [Transfer.toInvestor 2 1000000]) ∧
    (3 : Nat) ≤ 5 ∧
    crank_handler ⟨10000, 1000000000000, 1, 1000, 1, 1, 0⟩
      ⟨86400, 1000000, 0, 5, 1, 1000000, false, 1⟩ 172800 3
      [⟨1, 2, 1000, 0⟩] ⟨0, 1000000⟩ =
      .ok (⟨172800, 1000000, 0, 3, 2, 1000000, false, 1⟩,
        [Transfer.toInvestor 2 1000000]) :=
  ⟨rfl, by decide, rfl⟩

/-- Claim C3 (corrected): after every successful crank call with a valid
policy share (≤ 10000 bps, the `Policy` invariant) and a `u64` locked total,
`distributed_today ≤ claimed_today + carry_over_in`, where `carry_over_in`
is the carry-over held when the call started; in particular when the call
starts with zero carry-over, `distributed_today ≤ claimed_today` holds on
the persisted state.  The unconditional `distributed_today ≤ claimed_today`
fails for states whose carry-over was funded by a previous day (see the
counterexample). -/
theorem crank_distributed_le_claimed_plus_carry (pol : Policy) (prog : Progress)
    (now : Int) (page : Nat) (invs : List InvestorAccount) (cr : ClaimResult)
    (p1 : Progress) (txs : List Transfer)
    (hshare : pol.investor_fee_share_bps ≤ 10000)
    (hsum : (invs.map (fun a => a.locked_amount)).sum < 2 ^ 64)
    (h : crank_handler pol prog now page invs cr = .ok (p1, txs)) :
    p1.distributed_today ≤ p1.claimed_today + prog.carry_over ∧
    (prog.carry_over = 0 → p1.distributed_today ≤ p1.claimed_today) := by
  obtain ⟨hpage, hnow, hrest⟩ := crank_handler_ok_inv h
  obtain ⟨hdc, hne, hbase, claimed, eligible, fee, capped, ttd, d, dist1, txs0,
    hclaimed, hL0, helig, hfee, hcap, httd2, hpi, hdist, hcase⟩ := crank_rest_ok_inv hrest
  rw [Nat.mod_eq_of_lt hsum] at hL0 helig hpi
  have hLpos : 0 < (invs.map (fun a => a.locked_amount)).sum := Nat.pos_of_ne_zero hL0
  obtain ⟨hc1, hc2⟩ := checkedAdd64_ok hclaimed
  have hclaimed_eq : claimed = cr.quote_amount := by
    simpa [Progress.reset_for_new_day] using hc1
  have hquote64 : cr.quote_amount < 2 ^ 64 := by
    simp [Progress.reset_for_new_day] at hc2
    omega
  have heligle : eligible ≤ 10000 := calculate_eligible_share_bps_le hshare helig
  have hfeele : fee ≤ cr.quote_amount :=
    calculate_investor_fee_quote_le hquote64 heligle hfee
  have hcapped : capped = min fee
      (pol.daily_cap - (prog.reset_for_new_day now).distributed_today) :=
    (Except.ok.inj hcap).symm
  have hcaple : capped ≤ fee := by
    rw [hcapped]
    exact min_le_left _ _
  obtain ⟨ht1, ht2⟩ := checkedAdd64_ok httd2
  have httd_eq : ttd = capped + prog.carry_over := by
    simpa [Progress.reset_for_new_day] using ht1
  have httd64 : ttd < 2 ^ 64 := by omega
  have hmem : ∀ inv ∈ invs, inv.locked_amount ≤ (invs.map (fun a => a.locked_amount)).sum :=
    fun inv hi => mem_le_list_sum (List.mem_map_of_mem _ hi)
  have hS : (invs.map (pagePayout ttd ((invs.map (fun a => a.locked_amount)).sum)
      pol.min_payout_lamports)).sum ≤ ttd := pagePayouts_sum_le hLpos (le_refl _)
  obtain ⟨txs2, hrun⟩ := @processInvestors_eval ttd
    ((invs.map (fun a => a.locked_amount)).sum) pol.min_payout_lamports hLpos hsum
    httd64 invs 0 [] hmem (by omega)
  rw [hpi] at hrun
  have hdpair := Except.ok.inj hrun
  have hd_eq : d = (invs.map (pagePayout ttd ((invs.map (fun a => a.locked_amount)).sum)
      pol.min_payout_lamports)).sum := by
    have := congrArg Prod.fst hdpair
    simpa using this
  have hdle : d ≤ ttd := by omega
  obtain ⟨hd1, _⟩ := checkedAdd64_ok hdist
  have hdist1_eq : dist1 = d := by
    simpa [Progress.reset_for_new_day] using hd1
  have hkey : dist1 ≤ claimed + prog.carry_over := by omega
  rcases hcase with ⟨_, hp1, _⟩ | ⟨_, hp1, _⟩ <;>
  · have hpd : p1.distributed_today = dist1 := by rw [hp1]
    have hpc : p1.claimed_today = claimed := by rw [hp1]
    rw [hpd, hpc]
    exact ⟨hkey, fun h0 => by omega⟩

/-- Witness for C3 at a benign concrete run (zero carry-over in): a fresh
day distributing 1000000 of a 1000000 claim keeps
`distributed_today ≤ claimed_today`. -/
theorem crank_distributed_le_claimed_plus_carry_witness :
    (Progress.mk 86400 1000000 0 2 1 1000000 false 1).distributed_today ≤
      (Progress.mk 86400 1000000 0 2 1 1000000 false 1).claimed_today +
        (Progress.new 1).carry_over ∧
    ((Progress.new 1).carry_over = 0 →
      (Progress.mk 86400 1000000 0 2 1 1000000 false 1).distributed_today ≤
        (Progress.mk 86400 1000000 0 2 1 1000000 false 1).claimed_today) :=
  crank_distributed_le_claimed_plus_carry ⟨10000, 1000000000000, 1, 1000, 1, 1, 0⟩
    (Progress.new 1) 86400 2 [⟨1, 2, 1000, 0⟩] ⟨0, 1000000⟩
    (Progress.mk 86400 1000000 0 2 1 1000000 false 1) [Transfer.toInvestor 2 1000000]
    (by decide) (by decide) rfl

/-- Counterexample to C3 as stated: day 1 leaves a 1000000 carry-over (dust
below the 1500000 minimum payout); day 2 distributes carry-over plus the new
claim, and the persisted state of the successful call has
`distributed_today = 2000000 > claimed_today = 1000000`. -/
theorem crank_distributed_exceeds_claimed :
    crank_handler ⟨10000, 1000000000000, 1500000, 1000, 1, 1, 0⟩ (Progress.new 1) 86400 1
      [⟨1, 2, 1000, 0⟩] ⟨0, 1000000⟩ =
      .ok (⟨86400, 0, 1000000, 1, 1, 1000000, false, 1⟩, []) ∧
    crank_handler ⟨10000, 1000000000000, 1500000, 1000, 1, 1, 0⟩
      ⟨86400, 0, 1000000, 1, 1, 1000000, false, 1⟩ 172800 1
      [⟨1, 2, 1000, 0⟩] ⟨0, 1000000⟩ =
      .ok (⟨172800, 2000000, 0, 1, 2, 1000000, false, 1⟩,
        [Transfer.toInvestor 2 2000000]) ∧
    ¬ ((⟨172800, 2000000, 0, 1, 2, 1000000, false, 1⟩ : Progress).distributed_today ≤
        (⟨172800, 2000000, 0, 1, 2, 1000000, false, 1⟩ : Progress).claimed_today) :=
  ⟨rfl, rfl, by decide⟩

/-- Claim C1 (corrected): when a successful crank takes the end-of-day
branch, provided `distributed_today ≤ claimed_today` holds at that moment
(true whenever the day was not funded by a previous day's carry-over),
conservation holds: `distributed_today + carry_over_after + remainder_paid
= claimed_today`, with the post-close carry-over zeroed and `day_complete`
set.  When `distributed_today > claimed_today` the remainder saturates to 0
and the equation fails (see the counterexample). -/
theorem crank_close_conservation (pol : Policy) (prog : Progress) (now : Int)
    (page : Nat) (invs : List InvestorAccount) (cr : ClaimResult) (p1 : Progress)
    (txs : List Transfer)
    (h : crank_handler pol prog now page invs cr = .ok (p1, txs))
    (hfin : 10 ≤ page)
    (hle : p1.distributed_today ≤ p1.claimed_today) :
    p1.day_complete = true ∧ p1.carry_over = 0 ∧
    p1.distributed_today + p1.carry_over + creatorPaid txs = p1.claimed_today := by
  obtain ⟨hpage, hnow, hrest⟩ := crank_handler_ok_inv h
  obtain ⟨hdc, hne, hbase, claimed, eligible, fee, capped, ttd, d, dist1, txs0,
    hclaimed, hL0, helig, hfee, hcap, httd2, hpi, hdist, hcase⟩ := crank_rest_ok_inv hrest
  have hfinB : is_final_page_for_day page = true := by
    simp [is_final_page_for_day, hfin]
  rcases hcase with ⟨_, hp1, htxs⟩ | ⟨hfinB2, _, _⟩
  · have hcp0 : creatorPaid txs0 = 0 := processInvestors_creatorPaid invs 0 [] d txs0 hpi
    have hpd : p1.distributed_today = dist1 := by rw [hp1]
    have hpc : p1.claimed_today = claimed := by rw [hp1]
    have hpo : p1.carry_over = 0 := by rw [hp1]
    have hpk : p1.day_complete = true := by rw [hp1]
    refine ⟨hpk, hpo, ?_⟩
    have hle2 : dist1 ≤ claimed := by rw [← hpd, ← hpc]; exact hle
    have hsub : checkedSub64 claimed dist1 = some (claimed - dist1) :=
      checkedSub64_of_le hle2
    rw [hpd, hpc, hpo, htxs, hsub]
    simp only [Option.getD_some]
    by_cases hrem : 0 < claimed - dist1
    · rw [if_pos hrem, creatorPaid_append, hcp0]
      simp only [creatorPaid]
      omega
    · rw [if_neg hrem, hcp0]
      omega
  · rw [hfinB] at hfinB2
    exact Bool.noConfusion hfinB2

/-- Witness for C1 at a benign concrete close (page 10, zero carry-over in,
everything distributed, remainder 0): the books balance. -/
theorem crank_close_conservation_witness :
    (Progress.mk 86400 1000000 0 10 1 1000000 true 1).day_complete = true ∧
    (Progress.mk 86400 1000000 0 10 1 1000000 true 1).carry_over = 0 ∧
    (Progress.mk 86400 1000000 0 10 1 1000000 true 1).distributed_today +
      (Progress.mk 86400 1000000 0 10 1 1000000 true 1).carry_over +
      creatorPaid [Transfer.toInvestor 2 1000000] =
      (Progress.mk 86400 1000000 0 10 1 1000000 true 1).claimed_today :=
  crank_close_conservation ⟨10000, 1000000000000, 1, 1000, 1, 1, 0⟩ (Progress.new 1)
    86400 10 [⟨1, 2, 1000, 0⟩] ⟨0, 1000000⟩
    (Progress.mk 86400 1000000 0 10 1 1000000 true 1) [Transfer.toInvestor 2 1000000]
    rfl (by decide) (by decide)

/-- Counterexample to C1 as stated: day 1 leaves a 1000000 carry-over; day 2
closes at page 10 after distributing 2000000 of a 1000000 claim, the
remainder saturates to 0, and
`distributed_today + carry_over_after + remainder_paid ≠ claimed_today`. -/
theorem crank_close_conservation_cex :
    crank_handler ⟨10000, 1000000000000, 1500000, 1000, 1, 1, 0⟩ (Progress.new 1) 86400 1
      [⟨1, 2, 1000, 0⟩] ⟨0, 1000000⟩ =
      .ok (⟨86400, 0, 1000000, 1, 1, 1000000, false, 1⟩, []) ∧
    crank_handler ⟨10000, 1000000000000, 1500000, 1000, 1, 1, 0⟩
      ⟨86400, 0, 1000000, 1, 1, 1000000, false, 1⟩ 172800 10
      [⟨1, 2, 1000, 0⟩] ⟨0, 1000000⟩ =
      .ok (⟨172800, 2000000, 0, 10, 2, 1000000, true, 1⟩,
        [Transfer.toInvestor 2 2000000]) ∧
    (⟨172800, 2000000, 0, 10, 2, 1000000, true, 1⟩ : Progress).day_complete = true ∧
    (⟨172800, 2000000, 0, 10, 2, 1000000, true, 1⟩ : Progress).distributed_today +
      (⟨172800, 2000000, 0, 10, 2, 1000000, true, 1⟩ : Progress).carry_over +
      creatorPaid [Transfer.toInvestor 2 2000000] ≠
      (⟨172800, 2000000, 0, 10, 2, 1000000, true, 1⟩ : Progress).claimed_today :=
  ⟨rfl, rfl, rfl, by decide⟩

/-- Claim C9 (corrected): `initialize` rejects bad numeric parameters with
exactly the claimed errors, checked in order (`InvalidFeeShareBps` when
`share > 10000`, `InvalidDailyCap` when `cap = 0`, `InvalidMinPayout` when
`min = 0`, `InvalidY0` when `y0 = 0`); on an error no `Policy`/`Progress`
is created (an error result creates nothing); and on success the created
`Policy` carries exactly the validated parameters and the `Progress` is
zeroed.  However, the handler never fails with `InvalidPoolTokenOrder`: the
`PoolConfig` it validates sets `token_b` to the `quote_mint` account itself
and never reads the actual pool's tokens, so the check is vacuous (see the
counterexample). -/
theorem initialize_validation (share cap minp y0 base quote pta ptb trem vault : Nat)
    (now : Int) :
    (10000 < share →
      initialize_handler share cap minp y0 base quote pta ptb trem vault now =
        .error .InvalidFeeShareBps) ∧
    (share ≤ 10000 → cap = 0 →
      initialize_handler share cap minp y0 base quote pta ptb trem vault now =
        .error .InvalidDailyCap) ∧
    (share ≤ 10000 → cap ≠ 0 → minp = 0 →
      initialize_handler share cap minp y0 base quote pta ptb trem vault now =
        .error .InvalidMinPayout) ∧
    (share ≤ 10000 → cap ≠ 0 → minp ≠ 0 → y0 = 0 →
      initialize_handler share cap minp y0 base quote pta ptb trem vault now =
        .error .InvalidY0) ∧
    (initialize_handler share cap minp y0 base quote pta ptb trem vault now ≠
      .error .InvalidPoolTokenOrder) ∧
    (share ≤ 10000 → cap ≠ 0 → minp ≠ 0 → y0 ≠ 0 → trem = quote →
      initialize_handler share cap minp y0 base quote pta ptb trem vault now =
        .ok (Policy.new share cap minp y0 quote vault now, Progress.new vault)) := by
  refine ⟨?_, ?_, ?_, ?_, ?_, ?_⟩
  · intro h1
    simp [initialize_handler, h1]
  · intro h1 h2
    simp [initialize_handler, not_lt.mpr h1, h2]
  · intro h1 h2 h3
    simp [initialize_handler, not_lt.mpr h1, h2, h3]
  · intro h1 h2 h3 h4
    simp [initialize_handler, not_lt.mpr h1, h2, h3, h4]
  · intro h
    by_cases h1 : 10000 < share
    · simp [initialize_handler, h1] at h
    by_cases h2 : cap = 0
    · simp [initialize_handler, h1, h2] at h
    by_cases h3 : minp = 0
    · simp [initialize_handler, h1, h2, h3] at h
    by_cases h4 : y0 = 0
    · simp [initialize_handler, h1, h2, h3, h4] at h
    by_cases h5 : trem = quote
    · simp [initialize_handler, h1, h2, h3, h4, h5, validate_quote_only_pool,
        Policy.validate, Policy.new, not_lt.mp h1, Nat.pos_of_ne_zero h2,
        Nat.pos_of_ne_zero h3, Nat.pos_of_ne_zero h4] at h
    · simp [initialize_handler, h1, h2, h3, h4, h5, validate_quote_only_pool,
        Policy.validate, Policy.new, not_lt.mp h1, Nat.pos_of_ne_zero h2,
        Nat.pos_of_ne_zero h3, Nat.pos_of_ne_zero h4] at h
  · intro h1 h2 h3 h4 h5
    simp [initialize_handler, h1, not_lt.mpr h1, h2, h3, h4, h5,
      validate_quote_only_pool, Policy.validate, Policy.new, Nat.pos_of_ne_zero h2,
      Nat.pos_of_ne_zero h3, Nat.pos_of_ne_zero h4]

/-- Witness for C9: a valid parameter set creates exactly the given policy
and a zeroed progress; `share = 20000` is rejected with
`InvalidFeeShareBps`. -/
theorem initialize_validation_witness :
    initialize_handler 5000 10 2 1000 7 8 9 8 8 3 0 =
      .ok (Policy.new 5000 10 2 1000 8 3 0, Progress.new 3) ∧
    initialize_handler 20000 10 2 1000 7 8 9 8 8 3 0 = .error .InvalidFeeShareBps :=
  ⟨(initialize_validation 5000 10 2 1000 7 8 9 8 8 3 0).2.2.2.2.2
      (by decide) (by decide) (by decide) (by decide) rfl,
    (initialize_validation 20000 10 2 1000 7 8 9 8 8 3 0).1 (by decide)⟩

/-- Counterexample to C9 as stated: the actual pool's second token (42)
differs from the expected quote mint (8), yet `initialize` succeeds instead
of failing with `InvalidPoolTokenOrder`: the handler never consults the
pool's token order. -/
theorem initialize_ignores_pool_token_order :
    (42 : Nat) ≠ 8 ∧
    initialize_handler 5000 10 2 1000 7 8 9 42 8 3 0 =
      .ok (Policy.new 5000 10 2 1000 8 3 0, Progress.new 3) :=
  ⟨by decide, rfl⟩

end Star
